import Mathlib

/-!
Verification development for the quota-aware YouTube comment/reply
collection engine (srcs/services/YouTubeCommentCollector.py,
srcs/YouTubeConfig.py, comments.py).

The Python code is embedded shallowly:
* dictionaries that cross the API boundary become structures;
* the mutable collector state (config, quota_usage, call bookkeeping)
  is threaded explicitly;
* Python exceptions become values of `PyErr`, and each `try/except`
  becomes a match on the result, so that which handler catches what is
  modelled faithfully (an exception raised inside an `except` block
  propagates past the sibling handlers of the same `try`);
* the remote API is an environment: a credential lookup
  (`os.getenv('YOUTUBE_API_KEY' + str(n), '')`) and, for each endpoint,
  a function from (request parameters, call index) to an outcome;
* the unbounded `while True` page loops take a fuel parameter; running
  out of fuel is reported as a distinct result, never as a normal return.

Time-based behaviour (`time.sleep`, `_rate_limit`) has no observable
effect on the collected data and is omitted.
-/

/-- Snippet of one comment as delivered by the API
(the fields read by `extract_comment_data`). -/
structure CommentSnippet where
  authorDisplayName : String
  authorChannelId : Option String
  textDisplay : String
  textOriginal : String
  likeCount : Nat
  publishedAt : String
  updatedAt : String
deriving DecidableEq, Repr

/-- The `item['snippet']` dictionary. A reply resource stores the comment
snippet directly (`direct`); a thread resource nests it one level deeper
(`topLevelComment`) and carries `totalReplyCount` (absent key modelled as
`none`, since the thread loop reads it without a default). -/
structure ItemSnippet where
  direct : CommentSnippet
  topLevelComment : CommentSnippet
  totalReplyCount : Option Nat
deriving DecidableEq, Repr

/-- A raw API item as passed to `extract_comment_data`: `item['id']` plus
`item['snippet']`. -/
structure RawItem where
  id : String
  snippet : ItemSnippet
deriving DecidableEq, Repr

/-- One element of a commentThreads listing response: the raw item plus the
optional `item['replies']['comments']` list of embedded reply resources. -/
structure ThreadItem where
  base : RawItem
  replies : Option (List RawItem)
deriving DecidableEq, Repr

/-- The flat comment record built by `extract_comment_data`. -/
structure CommentRecord where
  comment_id : String
  video_id : String
  author : String
  author_channel_id : String
  comment_text : String
  text_original : String
  like_count : Nat
  published_at : String
  updated_at : String
  reply_count : Nat
  is_reply : Bool
  parent_id : String
  reply_depth : Nat
deriving DecidableEq, Repr

/-- Truthiness of a Python value that is either `None` or a `bool`
(the value `if` tests on the result of `_change_api`). -/
def pyTruthy : Option Bool → Bool
  | none => false
  | some b => b

/-- Truthiness of a Python value that is either `None` or a `str`
(page tokens: `if not next_page_token`). -/
def pyStrTruthy : Option String → Bool
  | none => false
  | some s => !(s == "")

/-- `os.getenv(key, '')`: the configured credential at an index, or `''`. -/
def getenvD (cred : Nat → Option String) (n : Nat) : String :=
  (cred n).getD ""

/-- Whether one character list starts with another. -/
def isPrefixChars : List Char → List Char → Bool
  | [], _ => true
  | _ :: _, [] => false
  | p :: ps, c :: cs => p == c && isPrefixChars ps cs

/-- Whether a character list occurs somewhere inside another. -/
def containsSubChars (pat : List Char) : List Char → Bool
  | [] => isPrefixChars pat []
  | c :: rest => isPrefixChars pat (c :: rest) || containsSubChars pat rest

/-- Python's substring test `pat in s`. -/
def containsSub (s pat : String) : Bool :=
  containsSubChars pat.data s.data

/-- The fields of `YouTubeConfig` that the collection engine reads or
mutates.  `api_count` starts at 1; `__post_init__` resolves
`YOUTUBE_API_KEY1`. -/
structure Config where
  api_key : String
  api_count : Nat
  quota_limit_per_day : Nat
  max_retries : Nat
deriving DecidableEq, Repr

/-- `YouTubeConfig._change_api`: bump `api_count`, look the new key up in
the environment — and fall off the end of the function, returning Python
`None` (there is no `return` statement), modelled as the second component
`(none : Option Bool)`. -/
def change_api (cred : Nat → Option String) (c : Config) : Config × Option Bool :=
  ({ c with api_count := c.api_count + 1
           , api_key := getenvD cred (c.api_count + 1) }, none)

/-- A Python exception value: googleapiclient's `HttpError` (status plus
decoded content), or any other `Exception`. -/
inductive PyErr where
  | httpError (status : Nat) (content : String)
  | exn (msg : String)
deriving DecidableEq, Repr

/-- Outcome of one remote call in the environment script: a successful
response (items plus optional `nextPageToken`), a raised `HttpError`, or a
raised generic exception. -/
inductive Outcome (α : Type) where
  | ok (items : List α) (nextPageToken : Option String)
  | httpErr (status : Nat) (content : String)
  | genErr
deriving DecidableEq, Repr

/-- The external world: credential lookup and the two paginated endpoints.
Each endpoint is a function of the request parameters and of the index of
the call (how many calls to that endpoint were made before), so that
time-varying behaviour such as transient failures can be scripted. -/
structure Env where
  cred : Nat → Option String
  threads : Option String → Nat → Outcome ThreadItem
  repl : String → Option String → Nat → Outcome RawItem

/-- Mutable collector state: the shared `config`, `self.quota_usage`, and
the per-endpoint call counters that drive the environment scripts. -/
structure CollSt where
  config : Config
  quotaUsage : Nat
  tCalls : Nat
  rCalls : Nat
deriving DecidableEq, Repr

/-- `YouTubeCommentCollector._check_quota`.  When the pre-check fails it
evaluates `self.config._change_api()` (whose state mutation persists even
on the raising path) and tests the returned `None` for truth; the
successful-rotation branch resets `quota_usage` and returns `True`, the
other branch raises.  The raised exception is returned as an `Except`
error together with the mutated state. -/
def check_quota (env : Env) (cost : Nat) (st : CollSt) :
    CollSt × Except PyErr Bool :=
  if st.quotaUsage + cost > st.config.quota_limit_per_day then
    let r := change_api env.cred st.config
    if pyTruthy r.2 then
      ({ st with config := r.1, quotaUsage := 0 }, .ok true)
    else
      ({ st with config := r.1 },
        .error (.exn "all api keys daily quota exceeded"))
  else (st, .ok true)

/-- `YouTubeCommentCollector._handle_api_error`: on a 403 whose content
mentions `quotaExceeded`, attempt rotation (truthy result: reset usage and
report retryable; falsy: raise); every other error is not retryable. -/
def handle_api_error (env : Env) (status : Nat) (content : String)
    (st : CollSt) : CollSt × Except PyErr Bool :=
  if status == 403 then
    if containsSub content "quotaExceeded" then
      let r := change_api env.cred st.config
      if pyTruthy r.2 then
        ({ st with config := r.1, quotaUsage := 0 }, .ok true)
      else
        ({ st with config := r.1 }, .error (.exn "all api keys exhausted"))
    else (st, .ok false)
  else (st, .ok false)

/-- `YouTubeCommentCollector.extract_comment_data` (the near-identical
`CompleteCommentCollector.extract_comment_data` differs only by omitting
`text_original`): pick the snippet location by `is_reply`, read
`totalReplyCount` with default 0 for top-level items only, and set
`reply_depth` to 1 exactly when `is_reply and parent_id` is truthy. -/
def extract_comment_data (item : RawItem) (videoId : String)
    (isReply : Bool) (parentId : String) : CommentRecord :=
  let snippet := if isReply then item.snippet.direct
                 else item.snippet.topLevelComment
  { comment_id := item.id
  , video_id := videoId
  , author := snippet.authorDisplayName
  , author_channel_id := (snippet.authorChannelId).getD ""
  , comment_text := snippet.textDisplay
  , text_original := snippet.textOriginal
  , like_count := snippet.likeCount
  , published_at := snippet.publishedAt
  , updated_at := snippet.updatedAt
  , reply_count := if !isReply then item.snippet.totalReplyCount.getD 0 else 0
  , is_reply := isReply
  , parent_id := parentId
  , reply_depth := if isReply && !(parentId == "") then 1 else 0 }

/-- Result of one pass of the inner retry loop of `get_all_replies`:
`ret` models one of the `return all_replies` statements, `cont` models
falling back to the outer `while True` (either `break` with a fresh page
token, or the retry budget running out), `raised` models an exception
propagating out of the function (only `_handle_api_error` can raise
there). -/
inductive RepInner where
  | ret (replies : List CommentRecord) (st : CollSt)
  | cont (acc : List CommentRecord) (tok : Option String) (st : CollSt)
  | raised (e : PyErr) (st : CollSt)
deriving Repr

/-- The inner `while retry_count < max_retries` loop of `get_all_replies`,
structurally recursive on the remaining budget `max_retries - retry_count`.
The `try` body runs `_check_quota(1)` (its raise is caught by the
function's own `except Exception`, counting as a retry), then one replies
call; a 404 returns the collected list, a handled quota error retries,
any other `HttpError` returns the collected list, and a generic exception
retries until the budget is spent. -/
def replies_inner (env : Env) (parentId videoId : String) :
    Nat → CollSt → List CommentRecord → Option String → RepInner
  | 0, st, acc, tok => .cont acc tok st
  | b + 1, st, acc, tok =>
    let cq := check_quota env 1 st
    match cq.2 with
    | .error _ =>
      if b == 0 then .ret acc cq.1
      else replies_inner env parentId videoId b cq.1 acc tok
    | .ok _ =>
      let st1 := cq.1
      let outcome := env.repl parentId tok st1.rCalls
      let st2 := { st1 with rCalls := st1.rCalls + 1 }
      match outcome with
      | .ok items nextTok =>
        let st3 := { st2 with quotaUsage := st2.quotaUsage + 1 }
        let acc1 := acc ++ items.map
          (fun it => extract_comment_data it videoId true parentId)
        if pyStrTruthy nextTok then .cont acc1 nextTok st3
        else .ret acc1 st3
      | .httpErr status content =>
        if status == 404 then .ret acc st2
        else
          let h := handle_api_error env status content st2
          match h.2 with
          | .error e => .raised e h.1
          | .ok true =>
            if b == 0 then .cont acc tok h.1
            else replies_inner env parentId videoId b h.1 acc tok
          | .ok false => .ret acc h.1
      | .genErr =>
        if b == 0 then .ret acc st2
        else replies_inner env parentId videoId b st2 acc tok

/-- Result of `get_all_replies`: a normal return, a propagating exception,
or fuel exhaustion of the model (the source loop would still be running). -/
inductive RepRes where
  | done (replies : List CommentRecord) (st : CollSt)
  | raised (e : PyErr) (st : CollSt)
  | fuelOut
deriving Repr

/-- The outer `while True` loop of `get_all_replies`, bounded by fuel.
Each iteration resets `retry_count` to 0 and runs the inner retry loop. -/
def get_all_replies_loop (env : Env) (parentId videoId : String) :
    Nat → CollSt → List CommentRecord → Option String → RepRes
  | 0, _, _, _ => .fuelOut
  | f + 1, st, acc, tok =>
    match replies_inner env parentId videoId st.config.max_retries st acc tok with
    | .ret replies st1 => .done replies st1
    | .raised e st1 => .raised e st1
    | .cont acc1 tok1 st1 => get_all_replies_loop env parentId videoId f st1 acc1 tok1

/-- `YouTubeCommentCollector.get_all_replies`: full paginated walk of the
replies endpoint for one parent comment, starting with no page token. -/
def get_all_replies (env : Env) (fuel : Nat) (st : CollSt)
    (parentId videoId : String) : RepRes :=
  get_all_replies_loop env parentId videoId fuel st [] none

/-- Result of processing the items of one thread page (the `for item in
response.get('items', [])` body of `collect_all_comments`).  On `raised`,
the records appended before the exception are kept (the Python list is
mutated in place) and so are the state mutations of the nested calls. -/
inductive ProcRes where
  | done (acc : List CommentRecord) (st : CollSt)
  | raised (e : PyErr) (acc : List CommentRecord) (st : CollSt)
  | fuelOut
deriving Repr

/-- The per-item body of `collect_all_comments`: extract the top-level
record, extract the embedded replies (`parent_id = item['id']`), read
`item['snippet']['totalReplyCount']` (a missing key raises `KeyError`),
and when it exceeds the number of embedded replies run `get_all_replies`
and append only the fetched replies whose `comment_id` is not among the
embedded ones. -/
def process_page_items (env : Env) (videoId : String) (fuel : Nat) :
    List ThreadItem → List CommentRecord → CollSt → ProcRes
  | [], acc, st => .done acc st
  | item :: rest, acc, st =>
    let top := extract_comment_data item.base videoId false ""
    let apiReplies :=
      match item.replies with
      | some rs => rs.map
          (fun r => extract_comment_data r videoId true item.base.id)
      | none => []
    let acc2 := acc ++ top :: apiReplies
    match item.base.snippet.totalReplyCount with
    | none => .raised (.exn "KeyError: totalReplyCount") acc2 st
    | some totalReplyCount =>
      if totalReplyCount > apiReplies.length then
        match get_all_replies env fuel st item.base.id videoId with
        | .fuelOut => .fuelOut
        | .raised e st1 => .raised e acc2 st1
        | .done completeReplies st1 =>
          let apiReplyIds := apiReplies.map (fun r => r.comment_id)
          let newReplies := completeReplies.filter
            (fun r => !(apiReplyIds.contains r.comment_id))
          process_page_items env videoId fuel rest (acc2 ++ newReplies) st1
      else process_page_items env videoId fuel rest acc2 st

/-- Exit value of the inner retry loop of `collect_all_comments`.  All
three ways of leaving the loop (success `break`, non-retryable
`HttpError` `break`, or the budget running out) hand the same data to the
outer loop, which only inspects `next_page_token` and `retry_count`. -/
inductive ThreadsInner where
  | exit (acc : List CommentRecord) (tok : Option String) (st : CollSt) (rc : Nat)
  | raised (e : PyErr) (st : CollSt)
  | fuelOut
deriving Repr

/-- The inner `while retry_count < max_retries` loop of
`collect_all_comments`, structurally recursive on the remaining budget.
A raise from `_check_quota` or from the item processing (both inside the
`try`) is caught by the generic `except Exception` and retried; a raise
from `_handle_api_error` (inside the `except HttpError` handler) is not
caught and propagates. -/
def collect_inner (env : Env) (videoId : String) (fuel : Nat) :
    Nat → Nat → CollSt → List CommentRecord → Option String → ThreadsInner
  | 0, rc, st, acc, tok => .exit acc tok st rc
  | b + 1, rc, st, acc, tok =>
    let cq := check_quota env 1 st
    match cq.2 with
    | .error _ =>
      if b == 0 then .exit acc tok cq.1 (rc + 1)
      else collect_inner env videoId fuel b (rc + 1) cq.1 acc tok
    | .ok _ =>
      let st1 := cq.1
      let outcome := env.threads tok st1.tCalls
      let st2 := { st1 with tCalls := st1.tCalls + 1 }
      match outcome with
      | .ok items nextTok =>
        let st3 := { st2 with quotaUsage := st2.quotaUsage + 1 }
        match process_page_items env videoId fuel items acc st3 with
        | .fuelOut => .fuelOut
        | .done acc1 st4 => .exit acc1 nextTok st4 rc
        | .raised e acc1 st4 =>
          match e with
          | .httpError status content =>
            let h := handle_api_error env status content st4
            match h.2 with
            | .error e2 => .raised e2 h.1
            | .ok true =>
              if b == 0 then .exit acc1 tok h.1 (rc + 1)
              else collect_inner env videoId fuel b (rc + 1) h.1 acc1 tok
            | .ok false => .exit acc1 tok h.1 rc
          | .exn _ =>
            if b == 0 then .exit acc1 tok st4 (rc + 1)
            else collect_inner env videoId fuel b (rc + 1) st4 acc1 tok
      | .httpErr status content =>
        let h := handle_api_error env status content st2
        match h.2 with
        | .error e2 => .raised e2 h.1
        | .ok true =>
          if b == 0 then .exit acc tok h.1 (rc + 1)
          else collect_inner env videoId fuel b (rc + 1) h.1 acc tok
        | .ok false => .exit acc tok h.1 rc
      | .genErr =>
        if b == 0 then .exit acc tok st2 (rc + 1)
        else collect_inner env videoId fuel b (rc + 1) st2 acc tok

/-- Result of `collect_all_comments`: the collected flat record list, a
propagating exception, or model fuel exhaustion (the source would still
be looping). -/
inductive CollectRes where
  | done (comments : List CommentRecord) (st : CollSt)
  | raised (e : PyErr) (st : CollSt)
  | fuelOut
deriving Repr

/-- The outer `while True` loop of `collect_all_comments`: run the inner
retry loop afresh (`retry_count = 0`), then
`if not next_page_token or retry_count >= max_retries: break` — note that
a non-retryable `HttpError` leaves both the token and `retry_count`
untouched, so with a token present the same page is requested again. -/
def collect_outer (env : Env) (videoId : String) :
    Nat → CollSt → Option String → List CommentRecord → CollectRes
  | 0, _, _, _ => .fuelOut
  | f + 1, st, tok, acc =>
    match collect_inner env videoId f st.config.max_retries 0 st acc tok with
    | .fuelOut => .fuelOut
    | .raised e st1 => .raised e st1
    | .exit acc1 tok1 st1 rc =>
      if !(pyStrTruthy tok1) || decide (rc ≥ st1.config.max_retries) then
        .done acc1 st1
      else collect_outer env videoId f st1 tok1 acc1

/-- Fresh collector state over a configuration
(`self.quota_usage = 0` in `__init__`). -/
def initSt (c : Config) : CollSt :=
  { config := c, quotaUsage := 0, tCalls := 0, rCalls := 0 }

/-- `YouTubeCommentCollector.collect_all_comments` over a fresh collector. -/
def collect_all_comments (env : Env) (fuel : Nat) (videoId : String)
    (c : Config) : CollectRes :=
  collect_outer env videoId fuel (initSt c) none []

/-- The record list of a normal return of `collect_all_comments`. -/
def collectResultComments : CollectRes → Option (List CommentRecord)
  | .done l _ => some l
  | _ => none

/-- The final collector state, when the run did not exhaust its fuel. -/
def collectResultState : CollectRes → Option CollSt
  | .done _ st => some st
  | .raised _ st => some st
  | .fuelOut => none

/-- Whether the run ended with a propagating exception. -/
def collectRaised : CollectRes → Bool
  | .raised _ _ => true
  | _ => false

/-- Banker's rounding of a rational to the nearest integer
(Python's `round` on the exactly representable values that occur here). -/
def halfEvenRound (q : ℚ) : ℤ :=
  let f := ⌊q⌋
  let r := q - f
  if r < 1 / 2 then f
  else if 1 / 2 < r then f + 1
  else if f % 2 = 0 then f else f + 1

/-- Python's `round(x, 2)`, over exact rationals. -/
def pyRound2 (q : ℚ) : ℚ :=
  (halfEvenRound (q * 100) : ℚ) / 100

/-- `counts[key] = counts.get(key, 0) + 1` over an insertion-ordered
association list (a Python `dict` used as a counter). -/
def bumpCount {α : Type} [BEq α] : List (α × Nat) → α → List (α × Nat)
  | [], k => [(k, 1)]
  | (k', v) :: rest, k =>
    if k' == k then (k', v + 1) :: rest else (k', v) :: bumpCount rest k

/-- `max(pairs, key=lambda x: x[1])` over a `dict`'s items: the first
pair with maximal count in insertion order (Python's `max` keeps the
current item unless a strictly greater one appears). -/
def maxByVal {α : Type} : List (α × Nat) → Option (α × Nat)
  | [] => none
  | p :: rest =>
    some (rest.foldl (fun best q => if q.2 > best.2 then q else best) p)

/-- The `most_replied_thread` sub-dictionary of the analysis. -/
structure MostReplied where
  comment_id : String
  author : String
  text : String
  reply_count : Nat
  like_count : Nat
deriving DecidableEq, Repr

/-- The aggregate dictionary returned by `analyze_comment_structure`. -/
structure Analysis where
  total_comments : Nat
  top_level_comments : Nat
  replies : Nat
  threads_with_replies : Nat
  max_replies_per_thread : Nat
  total_threads : Nat
  average_replies_per_thread : ℚ
  reply_distribution : List (Nat × Nat)
  most_replied_thread : Option MostReplied
  total_likes : Nat
  average_likes_per_comment : ℚ
deriving DecidableEq, Repr

/-- `YouTubeCommentCollector.analyze_comment_structure`: build the
all-zero dictionary, return it unchanged for an empty input, otherwise
split top-level comments from replies, total the likes, and — only when
there is at least one reply — fill in the per-thread reply statistics and
the most-replied thread (first maximum in dict insertion order, text
truncated to 100 characters with an ellipsis). -/
def analyze_comment_structure (comments : List CommentRecord) : Analysis :=
  let base : Analysis :=
    { total_comments := comments.length
    , top_level_comments := 0
    , replies := 0
    , threads_with_replies := 0
    , max_replies_per_thread := 0
    , total_threads := 0
    , average_replies_per_thread := 0
    , reply_distribution := []
    , most_replied_thread := none
    , total_likes := 0
    , average_likes_per_comment := 0 }
  if comments.isEmpty then base
  else
    let top_level := comments.filter (fun c => !c.is_reply)
    let replies := comments.filter (fun c => c.is_reply)
    let total_likes := comments.foldl (fun a c => a + c.like_count) 0
    let a1 :=
      { base with
        top_level_comments := top_level.length
      , replies := replies.length
      , total_threads := top_level.length
      , total_likes := total_likes
      , average_likes_per_comment :=
          if comments.isEmpty then 0
          else pyRound2 ((total_likes : ℚ) / (comments.length : ℚ)) }
    if replies.isEmpty then a1
    else
      let reply_counts :=
        replies.foldl (fun m r => bumpCount m r.parent_id) []
      let a2 :=
        { a1 with
          threads_with_replies := reply_counts.length
        , max_replies_per_thread :=
            if reply_counts.isEmpty then 0
            else (reply_counts.map (fun p => p.2)).foldl Nat.max 0
        , average_replies_per_thread :=
            if top_level.isEmpty then 0
            else pyRound2 ((replies.length : ℚ) / (top_level.length : ℚ))
        , reply_distribution :=
            (reply_counts.map (fun p => p.2)).foldl
              (fun m c => bumpCount m c) [] }
      match maxByVal reply_counts with
      | none => a2
      | some most =>
        match top_level.find? (fun c => c.comment_id == most.1) with
        | none => a2
        | some mc =>
          { a2 with
            most_replied_thread := some
              { comment_id := mc.comment_id
              , author := mc.author
              , text := mc.text_original.take 100 ++
                  (if mc.text_original.length > 100 then "..." else "")
              , reply_count := most.2
              , like_count := mc.like_count } }

/-! ### Pure reference values for runs against a well-behaved environment

The next definitions name, as ordinary functions of the response data,
the values the collection engine computes on a run where every remote
call succeeds.  The lemmas below prove that `collect_all_comments`
against such an environment returns exactly these values. -/

/-- The page token the environments below use for page index `j ≥ 1`:
`j` copies of the letter a (only its length is ever inspected). -/
def tokStr (j : Nat) : String := String.mk (List.replicate j 'a')

/-- Page index encoded by a token: `none` (the first request) is page 0. -/
def tokIdx : Option String → Nat
  | none => 0
  | some s => s.length

/-- An environment whose thread listing serves the given pages in order
(chained by length-encoded tokens) and whose replies endpoint answers
every request for a parent with a single page `fetch parent`. -/
def pureEnv (cred : Nat → Option String) (pages : List (List ThreadItem))
    (fetch : String → List RawItem) : Env :=
  { cred := cred
  , threads := fun tok _ =>
      match pages.drop (tokIdx tok) with
      | [] => .ok [] none
      | p :: rest =>
        .ok p (if rest.isEmpty then none else some (tokStr (tokIdx tok + 1)))
  , repl := fun p _ _ => .ok (fetch p) none }

/-- Declared `totalReplyCount` of a thread item, defaulting a missing key
to 0 (for stating trigger conditions). -/
def trcD (t : ThreadItem) : Nat :=
  t.base.snippet.totalReplyCount.getD 0

/-- Number of reply records embedded in a thread item's response. -/
def embLen (t : ThreadItem) : Nat :=
  (t.replies.getD []).length

/-- The trigger condition of the reply completer, as tested at the end of
the per-item processing: declared reply count strictly above the number
of embedded replies. -/
def replyFetchNeeded (t : ThreadItem) : Bool :=
  embLen t < trcD t

/-- The `comment_id`s of a thread item's embedded replies. -/
def embRawIds (t : ThreadItem) : List String :=
  (t.replies.getD []).map (fun r => r.id)

/-- The `comment_id`s the replies endpoint serves for a thread item. -/
def fetchIds (fetch : String → List RawItem) (t : ThreadItem) : List String :=
  (fetch t.base.id).map (fun r => r.id)

/-- Every `comment_id` a thread item can put into the collection: its own
id, its embedded replies, and — when the reply completer runs — the
fetched replies. -/
def usedIds (fetch : String → List RawItem) (t : ThreadItem) : List String :=
  t.base.id :: embRawIds t ++
    (if replyFetchNeeded t then fetchIds fetch t else [])

/-- The records one thread item contributes to the collection on a
successful run: top-level record, embedded replies, and (when triggered)
the fetched replies that do not duplicate an embedded `comment_id`. -/
def itemRecords (videoId : String) (fetch : String → List RawItem)
    (t : ThreadItem) : List CommentRecord :=
  let top := extract_comment_data t.base videoId false ""
  let emb :=
    match t.replies with
    | some rs => rs.map (fun r => extract_comment_data r videoId true t.base.id)
    | none => []
  if trcD t > emb.length then
    let fetched := (fetch t.base.id).map
      (fun r => extract_comment_data r videoId true t.base.id)
    let embIds := emb.map (fun r => r.comment_id)
    top :: emb ++ fetched.filter (fun r => !(embIds.contains r.comment_id))
  else top :: emb

/-- Number of items of a page list that trigger the reply completer. -/
def trigCount (items : List ThreadItem) : Nat :=
  (items.filter replyFetchNeeded).length

/-- Number of thread-listing calls a successful run makes: one per page,
and still one when the video has no pages at all. -/
def pagesCalls (pages : List (List ThreadItem)) : Nat :=
  if pages.isEmpty then 1 else pages.length

/-- Reply-completer triggers over a whole run. -/
def totalTrig (pages : List (List ThreadItem)) : Nat :=
  trigCount pages.flatten

/-- The full record list of a successful run. -/
def runRecords (videoId : String) (fetch : String → List RawItem)
    (pages : List (List ThreadItem)) : List CommentRecord :=
  (pages.flatten.map (itemRecords videoId fetch)).flatten

/-! ### Claims -/

/-- C10: the record built by `extract_comment_data` has `reply_depth = 1`
exactly when `is_reply` is true and `parent_id` is a non-empty string,
and 0 otherwise; a record extracted with `is_reply = true` but an empty
`parent_id` has `reply_depth = 0` while keeping `is_reply = true`; and
`reply_depth` is never anything but 0 or 1. -/
theorem C10_extract_reply_depth (item : RawItem) (videoId : String)
    (isReply : Bool) (parentId : String) :
    ((extract_comment_data item videoId isReply parentId).reply_depth = 1
      ↔ (isReply = true ∧ parentId ≠ ""))
  ∧ ((extract_comment_data item videoId isReply parentId).reply_depth = 0
      ↔ ¬(isReply = true ∧ parentId ≠ ""))
  ∧ ((extract_comment_data item videoId isReply parentId).reply_depth = 0
      ∨ (extract_comment_data item videoId isReply parentId).reply_depth = 1)
  ∧ (extract_comment_data item videoId true "").reply_depth = 0
  ∧ (extract_comment_data item videoId true "").is_reply = true := by
  cases isReply <;> by_cases h : parentId = "" <;>
    simp [extract_comment_data, h]

/-- Credential environment of the C1 failing input: a key is configured
at index 2. -/
def c1Cred : Nat → Option String :=
  fun n => if n == 2 then some "key2" else none

/-- Configuration of the C1 failing input. -/
def c1Cfg : Config :=
  { api_key := "key1", api_count := 1
  , quota_limit_per_day := 10000, max_retries := 3 }

/-- C1: the claim states that `_change_api` returns a boolean that is
true exactly when a credential was found at the advanced index.  The
code has no `return` statement: with a credential configured at index 2
the state is advanced and the new key is resolved, yet the returned
value is Python `None`, which every caller's truthiness test treats as
failure. -/
theorem C1_change_api_returns_none_despite_credential :
    change_api c1Cred c1Cfg =
      ({ api_key := "key2", api_count := 2
       , quota_limit_per_day := 10000, max_retries := 3 }, none)
    ∧ pyTruthy (change_api c1Cred c1Cfg).2 = false
    ∧ (c1Cred 2).isSome = true := by
  exact ⟨rfl, rfl, rfl⟩

/-- Rounding a zero average yields zero. -/
theorem pyRound2_zero : pyRound2 0 = 0 := by
  norm_num [pyRound2, halfEvenRound]

/-- C9: on the empty record list the analyzer returns the all-zero
aggregate with `most_replied_thread = none`; and on every record list
`average_replies_per_thread` is the reply count divided by the top-level
count, rounded to two decimals, and 0 when there is no top-level
comment. -/
theorem C9_analyze_empty_and_average :
    (analyze_comment_structure []).total_comments = 0
  ∧ (analyze_comment_structure []).top_level_comments = 0
  ∧ (analyze_comment_structure []).replies = 0
  ∧ (analyze_comment_structure []).threads_with_replies = 0
  ∧ (analyze_comment_structure []).max_replies_per_thread = 0
  ∧ (analyze_comment_structure []).total_threads = 0
  ∧ (analyze_comment_structure []).total_likes = 0
  ∧ (analyze_comment_structure []).average_replies_per_thread = 0
  ∧ (analyze_comment_structure []).average_likes_per_comment = 0
  ∧ (analyze_comment_structure []).most_replied_thread = none
  ∧ ∀ comments : List CommentRecord,
      (analyze_comment_structure comments).average_replies_per_thread =
        if (comments.filter (fun c => !c.is_reply)).length = 0 then 0
        else pyRound2
          (((comments.filter (fun c => c.is_reply)).length : ℚ) /
            ((comments.filter (fun c => !c.is_reply)).length : ℚ)) := by
  refine ⟨rfl, rfl, rfl, rfl, rfl, rfl, rfl, rfl, rfl, rfl, ?_⟩
  intro comments
  by_cases hc : comments.isEmpty
  · have h0 : comments = [] := List.isEmpty_iff.mp hc
    subst h0
    simp [analyze_comment_structure]
  · unfold analyze_comment_structure
    rw [if_neg hc]
    by_cases hr : (comments.filter (fun c => c.is_reply)).isEmpty
    · have h0 : comments.filter (fun c => c.is_reply) = [] :=
        List.isEmpty_iff.mp hr
      simp only [hr, if_true, h0]
      by_cases ht : (comments.filter (fun c => !c.is_reply)).length = 0
      · simp [ht]
      · simp [ht, pyRound2_zero]
    · simp only [hr, if_false]
      rcases hmv : maxByVal
          ((comments.filter (fun c => c.is_reply)).foldl
            (fun m r => bumpCount m r.parent_id) []) with _ | most
      · simp only [hmv]
        by_cases ht : (comments.filter (fun c => !c.is_reply)).isEmpty
        · have := List.isEmpty_iff.mp ht
          simp [ht, this]
        · have hne : (comments.filter (fun c => !c.is_reply)).length ≠ 0 := by
            intro h
            exact ht (List.isEmpty_iff.mpr (List.length_eq_zero.mp h))
          simp [ht, hne]
      · simp only [hmv]
        rcases hf : (comments.filter (fun c => !c.is_reply)).find?
            (fun c => c.comment_id == most.1) with _ | mc <;>
          · simp only [hf]
            by_cases ht : (comments.filter (fun c => !c.is_reply)).isEmpty
            · have := List.isEmpty_iff.mp ht
              simp [ht, this]
            · have hne : (comments.filter (fun c => !c.is_reply)).length ≠ 0 := by
                intro h
                exact ht (List.isEmpty_iff.mpr (List.length_eq_zero.mp h))
              simp [ht, hne]

/-- Environment of the C2 failing input: keys configured at indices 1
and 2, every thread-listing call a successful page with a next token. -/
def c2Env : Env :=
  { cred := fun n =>
      if n == 1 then some "k1" else if n == 2 then some "k2" else none
  , threads := fun _ _ => .ok [] (some "t")
  , repl := fun _ _ _ => .ok [] none }

/-- Configuration of the C2 failing input: a daily quota of 2. -/
def c2Cfg : Config :=
  { api_key := "k1", api_count := 1
  , quota_limit_per_day := 2, max_retries := 3 }

/-- C2: the claim's scenario (quota limit 2, two successful calls, then a
third whose pre-check fails while a next credential is configured)
requires the pre-check's rotation to succeed, reset usage to 0, and let
the third call through.  On the code, `_change_api`'s `None` return makes
the rotation test fail on each of the three retries (burning credential
indices 2, 3 and 4), and the raised quota-exhausted exception is caught
by the collector's own generic `except Exception` handler instead of
propagating: the run ends normally with the third call never made and
`quota_usage` still 2. -/
theorem C2_quota_scenario_fails_on_code :
    collectResultComments (collect_all_comments c2Env 10 "v" c2Cfg) = some []
    ∧ (collectResultState (collect_all_comments c2Env 10 "v" c2Cfg)).map
        (fun st => st.quotaUsage) = some 2
    ∧ (collectResultState (collect_all_comments c2Env 10 "v" c2Cfg)).map
        (fun st => st.tCalls) = some 2
    ∧ (collectResultState (collect_all_comments c2Env 10 "v" c2Cfg)).map
        (fun st => st.config.api_count) = some 4
    ∧ (c2Env.cred 2).isSome = true
    ∧ collectRaised (collect_all_comments c2Env 10 "v" c2Cfg) = false := by
  exact ⟨rfl, rfl, rfl, rfl, rfl, rfl⟩

/-- Environment of the C5 failing input: keys configured at indices 1
and 2; the first thread-listing call succeeds with a next token, every
later one fails with 403 quotaExceeded. -/
def c5Env : Env :=
  { cred := fun n =>
      if n == 1 then some "k1" else if n == 2 then some "k2" else none
  , threads := fun _ i =>
      if i == 0 then .ok [] (some "t") else .httpErr 403 "quotaExceeded"
  , repl := fun _ _ _ => .ok [] none }

/-- Configuration of the C5 failing input: ample quota, so only the
remote 403 signals exhaustion. -/
def c5Cfg : Config :=
  { api_key := "k1", api_count := 1
  , quota_limit_per_day := 10000, max_retries := 3 }

/-- C5: with a 403 quotaExceeded failure on the second page request and a
credential configured at the next index, the claim requires rotation to
succeed and the same page to be retried.  On the code,
`_handle_api_error` tests `_change_api()`'s `None` return, concludes all
keys are exhausted even though the new key was resolved (the final state
holds `api_key = "k2"`), and raises from inside the `except HttpError`
handler, so a terminal exception propagates with no retry at all. -/
theorem C5_rotation_never_retries_page :
    collectRaised (collect_all_comments c5Env 10 "v" c5Cfg) = true
    ∧ (collectResultState (collect_all_comments c5Env 10 "v" c5Cfg)).map
        (fun st => st.config.api_key) = some "k2"
    ∧ (collectResultState (collect_all_comments c5Env 10 "v" c5Cfg)).map
        (fun st => st.tCalls) = some 2
    ∧ c5Env.cred 2 = some "k2" := by
  exact ⟨rfl, rfl, rfl, rfl⟩

/-- Environment for the C6 failing input: the first thread-listing call
returns an empty page with a next-page token, and every later call fails
with a 400 error (a non-quota 4xx); the replies endpoint is unused. -/
def divergeEnv : Env :=
  { cred := fun _ => none
  , threads := fun _ i =>
      if i == 0 then .ok [] (some "t") else .httpErr 400 "badRequest"
  , repl := fun _ _ _ => .ok [] none }

/-- Configuration for the C6 failing input. -/
def c6Config : Config :=
  { api_key := "k1", api_count := 1
  , quota_limit_per_day := 10, max_retries := 3 }

/-- After the first page of the C6 environment, every further outer
iteration of `collect_all_comments` hits the 400 error, leaves the token
and `retry_count` untouched, and loops: no fuel suffices. -/
theorem collect_outer_diverges_on_http400 :
    ∀ (f k : Nat) (acc : List CommentRecord),
      collect_outer divergeEnv "v" f
        { config := c6Config, quotaUsage := 1, tCalls := k + 1, rCalls := 0 }
        (some "t") acc = .fuelOut := by
  intro f
  induction f with
  | zero => intro k acc; rfl
  | succ f ih => intro k acc; exact ih (k + 1) acc

/-- C6: the claim says a non-quota 4xx error makes the failing call site
abort its walk and return what was gathered, terminating.  That is what
`get_all_replies` does (second conjunct: a 400 on its second page returns
the one collected reply).  But in `collect_all_comments` the error only
breaks the retry loop; with a `next_page_token` present the outer loop's
exit test (`not next_page_token or retry_count >= max_retries`) fails and
the same page is requested again, forever: for every fuel bound the walk
is still running (first conjunct). -/
theorem C6_nonquota_error_thread_walk_never_aborts :
    (∀ fuel : Nat,
      collect_all_comments divergeEnv fuel "v" c6Config = .fuelOut)
    ∧ (let s : CommentSnippet :=
        { authorDisplayName := "a", authorChannelId := none
        , textDisplay := "t", textOriginal := "t", likeCount := 0
        , publishedAt := "p", updatedAt := "u" }
       let r : RawItem :=
        { id := "r1"
        , snippet :=
          { direct := s, topLevelComment := s, totalReplyCount := none } }
       let env : Env :=
        { cred := fun _ => none
        , threads := fun _ _ => .ok [] none
        , repl := fun _ _ i =>
            if i == 0 then .ok [r] (some "t") else .httpErr 400 "badRequest" }
       get_all_replies env 10 (initSt c6Config) "P" "v" =
         .done [extract_comment_data r "v" true "P"]
           { config := c6Config, quotaUsage := 1, tCalls := 0, rCalls := 2 }) := by
  constructor
  · intro fuel
    cases fuel with
    | zero => rfl
    | succ f => exact collect_outer_diverges_on_http400 f 0 []
  · rfl

/-- A length-encoded token decodes to its page index. -/
theorem tokIdx_tokStr (n : Nat) : tokIdx (some (tokStr n)) = n := by
  simp [tokIdx, tokStr, String.length]

/-- Length-encoded tokens for pages past the first are truthy. -/
theorem tokStr_truthy (k : Nat) : pyStrTruthy (some (tokStr (k + 1))) = true := by
  simp only [pyStrTruthy, Bool.not_eq_true', beq_eq_false_iff_ne, ne_eq]
  intro h
  have hd : (tokStr (k + 1)).data = ("" : String).data := by rw [h]
  simp [tokStr, List.replicate_succ] at hd

/-- Against an environment whose replies endpoint always answers with the
single page `fetch p`, `get_all_replies` returns the extraction of that
page and bumps the call counter and the quota by one, provided the quota
pre-check has headroom. -/
theorem get_all_replies_single_page (env : Env) (fetch : String → List RawItem)
    (Hrep : ∀ p tok i, env.repl p tok i = .ok (fetch p) none)
    (p vid : String) (st : CollSt) (fuel : Nat)
    (Hfuel : 1 ≤ fuel) (Hmr : 1 ≤ st.config.max_retries)
    (Hq : st.quotaUsage + 1 ≤ st.config.quota_limit_per_day) :
    get_all_replies env fuel st p vid =
      .done ((fetch p).map (fun r => extract_comment_data r vid true p))
        { st with rCalls := st.rCalls + 1
                , quotaUsage := st.quotaUsage + 1 } := by
  obtain ⟨f, rfl⟩ : ∃ f, fuel = f + 1 :=
    ⟨fuel - 1, (Nat.succ_pred_eq_of_pos Hfuel).symm⟩
  obtain ⟨b, hb⟩ : ∃ b, st.config.max_retries = b + 1 :=
    ⟨st.config.max_retries - 1, (Nat.succ_pred_eq_of_pos Hmr).symm⟩
  have hcq : check_quota env 1 st = (st, .ok true) := by
    unfold check_quota
    rw [if_neg (by omega)]
  unfold get_all_replies get_all_replies_loop
  rw [hb]
  unfold replies_inner
  simp only [hcq, Hrep, pyStrTruthy, List.nil_append]
  simp

/-- Against a single-page replies environment, processing the items of
one thread page succeeds, appends exactly the per-item reference records,
and consumes one replies call and one quota unit per triggered item. -/
theorem process_page_items_pure (env : Env) (fetch : String → List RawItem)
    (Hrep : ∀ p tok i, env.repl p tok i = .ok (fetch p) none) (vid : String) :
    ∀ (items : List ThreadItem) (st : CollSt) (acc : List CommentRecord)
      (fuel : Nat),
      1 ≤ fuel → 1 ≤ st.config.max_retries →
      st.quotaUsage + trigCount items ≤ st.config.quota_limit_per_day →
      (∀ t ∈ items, (t.base.snippet.totalReplyCount).isSome) →
      process_page_items env vid fuel items acc st =
        .done (acc ++ (items.map (itemRecords vid fetch)).flatten)
          { st with rCalls := st.rCalls + trigCount items
                  , quotaUsage := st.quotaUsage + trigCount items } := by
  intro items
  induction items with
  | nil =>
    intro st acc fuel _ _ _ _
    simp [process_page_items, trigCount]
  | cons t rest ih =>
    intro st acc fuel Hf Hmr Hq Htrc
    obtain ⟨n, hn⟩ := Option.isSome_iff_exists.mp (Htrc t (by simp))
    have htc : trcD t = n := by simp [trcD, hn]
    have hemb : (match t.replies with
        | some rs => rs.map (fun r => extract_comment_data r vid true t.base.id)
        | none => ([] : List CommentRecord)).length = embLen t := by
      cases h : t.replies <;> simp [embLen, h]
    unfold process_page_items
    simp only [hn]
    by_cases htr : replyFetchNeeded t
    · have hlt : embLen t < n := by
        have h1 := htr
        simp only [replyFetchNeeded, htc, decide_eq_true_eq] at h1
        exact h1
      have htrig : trigCount (t :: rest) = trigCount rest + 1 := by
        simp [trigCount, List.filter_cons_of_pos htr]
      rw [if_pos (by rw [hemb]; omega)]
      simp only [get_all_replies_single_page env fetch Hrep t.base.id vid st
        fuel Hf Hmr (by omega)]
      rw [ih { st with rCalls := st.rCalls + 1
                     , quotaUsage := st.quotaUsage + 1 } _ fuel Hf Hmr
        (by
          show st.quotaUsage + 1 + trigCount rest ≤ st.config.quota_limit_per_day
          omega)
        (fun u hu => Htrc u (by simp [hu]))]
      have hitem : itemRecords vid fetch t =
          extract_comment_data t.base vid false "" ::
            (match t.replies with
              | some rs =>
                rs.map (fun r => extract_comment_data r vid true t.base.id)
              | none => ([] : List CommentRecord)) ++
            ((fetch t.base.id).map
              (fun r => extract_comment_data r vid true t.base.id)).filter
              (fun r =>
                !(((match t.replies with
                    | some rs => rs.map
                        (fun r => extract_comment_data r vid true t.base.id)
                    | none => ([] : List CommentRecord)).map
                      (fun (r : CommentRecord) => r.comment_id)).contains
                  r.comment_id)) := by
        simp only [itemRecords]
        rw [if_pos (by rw [htc, hemb]; exact hlt)]
      rw [List.map_cons, List.flatten_cons, hitem, htrig]
      congr 1
      · simp [List.append_assoc]
      · simp
        omega
    · have htrig : trigCount (t :: rest) = trigCount rest := by
        simp [trigCount, List.filter_cons_of_neg htr]
      have hge : ¬ (n > (match t.replies with
          | some rs =>
            rs.map (fun r => extract_comment_data r vid true t.base.id)
          | none => ([] : List CommentRecord)).length) := by
        rw [hemb]
        simp only [replyFetchNeeded, decide_eq_true_eq, htc] at htr
        omega
      rw [if_neg hge]
      rw [ih st _ fuel Hf Hmr (by omega) (fun u hu => Htrc u (by simp [hu]))]
      have hitem : itemRecords vid fetch t =
          extract_comment_data t.base vid false "" ::
            (match t.replies with
              | some rs =>
                rs.map (fun r => extract_comment_data r vid true t.base.id)
              | none => ([] : List CommentRecord)) := by
        simp only [itemRecords]
        rw [if_neg (by rw [htc]; exact hge)]
      rw [List.map_cons, List.flatten_cons, hitem, htrig]
      congr 1
      simp [List.append_assoc]

/-- Reply-completer triggers add up over list concatenation. -/
theorem trigCount_append (a b : List ThreadItem) :
    trigCount (a ++ b) = trigCount a + trigCount b := by
  simp [trigCount, List.filter_append]

/-- Reply-completer triggers of a run split off its first page. -/
theorem totalTrig_cons (p : List ThreadItem) (ps : List (List ThreadItem)) :
    totalTrig (p :: ps) = trigCount p + totalTrig ps := by
  simp [totalTrig, List.flatten_cons, trigCount_append]

/-- The thread listing of a pure environment serves the page at the
token's index. -/
theorem pureEnv_threads (cred : Nat → Option String)
    (pages : List (List ThreadItem)) (fetch : String → List RawItem)
    (tok : Option String) (i : Nat) :
    (pureEnv cred pages fetch).threads tok i =
      match pages.drop (tokIdx tok) with
      | [] => .ok [] none
      | p :: rest =>
        .ok p (if rest.isEmpty then none else some (tokStr (tokIdx tok + 1))) :=
  rfl

/-- The replies endpoint of a pure environment is a single fetch page. -/
theorem pureEnv_repl (cred : Nat → Option String)
    (pages : List (List ThreadItem)) (fetch : String → List RawItem)
    (p : String) (tok : Option String) (i : Nat) :
    (pureEnv cred pages fetch).repl p tok i = .ok (fetch p) none := rfl

/-- Main success-path lemma: starting from any token decoding to a page
index whose suffix of remaining pages is `rest`, and given quota headroom,
at least one retry, and enough fuel, `collect_outer` against a pure
environment returns the reference records of `rest` and performs one
thread call per page plus one replies call and quota unit per trigger. -/
theorem collect_outer_pure (cred : Nat → Option String)
    (fetch : String → List RawItem) (vid : String)
    (pages : List (List ThreadItem)) :
    ∀ (rest : List (List ThreadItem)) (fuel : Nat) (tok : Option String)
      (st : CollSt) (acc : List CommentRecord),
      pages.drop (tokIdx tok) = rest →
      1 ≤ st.config.max_retries →
      st.quotaUsage + pagesCalls rest + totalTrig rest ≤
        st.config.quota_limit_per_day →
      pagesCalls rest + 1 ≤ fuel →
      (∀ t ∈ rest.flatten, (t.base.snippet.totalReplyCount).isSome) →
      collect_outer (pureEnv cred pages fetch) vid fuel st tok acc =
        .done (acc ++ (rest.flatten.map (itemRecords vid fetch)).flatten)
          { st with tCalls := st.tCalls + pagesCalls rest
                  , rCalls := st.rCalls + totalTrig rest
                  , quotaUsage :=
                      st.quotaUsage + pagesCalls rest + totalTrig rest } := by
  intro rest
  induction rest with
  | nil =>
    intro fuel tok st acc hdrop Hmr Hq Hfuel Htrc
    simp only [pagesCalls, totalTrig, trigCount, List.isEmpty_nil,
      List.flatten_nil, List.filter_nil, List.length_nil, if_true] at Hq Hfuel
    obtain ⟨f, rfl⟩ : ∃ f, fuel = f + 1 :=
      ⟨fuel - 1, by omega⟩
    obtain ⟨b, hb⟩ : ∃ b, st.config.max_retries = b + 1 :=
      ⟨st.config.max_retries - 1, (Nat.succ_pred_eq_of_pos Hmr).symm⟩
    have hcq : check_quota (pureEnv cred pages fetch) 1 st = (st, .ok true) := by
      unfold check_quota
      rw [if_neg (by omega)]
    unfold collect_outer
    rw [hb]
    unfold collect_inner
    simp only [hcq]
    simp only [pureEnv_threads, hdrop]
    simp [process_page_items, pyStrTruthy, pagesCalls, totalTrig, trigCount]
  | cons page rest' ih =>
    intro fuel tok st acc hdrop Hmr Hq Hfuel Htrc
    have hpc : pagesCalls (page :: rest') = rest'.length + 1 := by
      simp [pagesCalls]
    rw [totalTrig_cons] at Hq
    rw [hpc] at Hq Hfuel
    obtain ⟨f, rfl⟩ : ∃ f, fuel = f + 1 := ⟨fuel - 1, by omega⟩
    obtain ⟨b, hb⟩ : ∃ b, st.config.max_retries = b + 1 :=
      ⟨st.config.max_retries - 1, (Nat.succ_pred_eq_of_pos Hmr).symm⟩
    have hcq : check_quota (pureEnv cred pages fetch) 1 st = (st, .ok true) := by
      unfold check_quota
      rw [if_neg (by omega)]
    have Htrcp : ∀ t ∈ page, (t.base.snippet.totalReplyCount).isSome :=
      fun u hu => Htrc u (by simp [List.flatten_cons, hu])
    unfold collect_outer
    rw [hb]
    unfold collect_inner
    simp only [hcq]
    simp only [pureEnv_threads, hdrop]
    cases rest' with
    | nil =>
      simp only [List.isEmpty_nil, if_true]
      rw [process_page_items_pure (pureEnv cred pages fetch) fetch
        (pureEnv_repl cred pages fetch) vid page
        { st with tCalls := st.tCalls + 1, quotaUsage := st.quotaUsage + 1 }
        acc f (by simp at Hfuel; omega) Hmr
        (by
          show st.quotaUsage + 1 + trigCount page ≤
            st.config.quota_limit_per_day
          simp [totalTrig] at Hq
          omega)
        Htrcp]
      simp [pyStrTruthy, pagesCalls, totalTrig_cons, totalTrig, trigCount,
        List.flatten_cons]
    | cons p2 rest'' =>
      simp only [List.isEmpty_cons, Bool.false_eq_true, if_false]
      simp only [process_page_items_pure (pureEnv cred pages fetch) fetch
        (pureEnv_repl cred pages fetch) vid page
        { st with tCalls := st.tCalls + 1, quotaUsage := st.quotaUsage + 1 }
        acc f (by simp at Hfuel; omega) Hmr
        (by
          show st.quotaUsage + 1 + trigCount page ≤
            st.config.quota_limit_per_day
          omega)
        Htrcp]
      split
      next h =>
        simp [tokStr_truthy, hb] at h
      next h =>
        rw [ih f (some (tokStr (tokIdx tok + 1)))
        { config := st.config
        , quotaUsage := st.quotaUsage + 1 + trigCount page
        , tCalls := st.tCalls + 1, rCalls := st.rCalls + trigCount page }
        (acc ++ (List.map (itemRecords vid fetch) page).flatten)
        (by rw [tokIdx_tokStr, ← List.tail_drop, hdrop]; rfl)
        Hmr
        (by
          show st.quotaUsage + 1 + trigCount page +
              pagesCalls (p2 :: rest'') + totalTrig (p2 :: rest'') ≤
            st.config.quota_limit_per_day
          simp only [pagesCalls, List.isEmpty_cons, Bool.false_eq_true,
            if_false, List.length_cons] at Hq ⊢
          omega)
        (by
          show pagesCalls (p2 :: rest'') + 1 ≤ f
          simp only [pagesCalls, List.isEmpty_cons, Bool.false_eq_true,
            if_false, List.length_cons] at Hfuel ⊢
          omega)
        (fun u hu => Htrc u
          (by
            simp only [List.flatten_cons, List.mem_append] at hu ⊢
            exact Or.inr hu))]
        simp only [List.flatten_cons, List.map_append, List.flatten_append,
          List.append_assoc]
        congr 1
        simp only [CollSt.mk.injEq, eq_self_iff_true, true_and, and_true,
          totalTrig_cons, pagesCalls, List.isEmpty_cons,
          Bool.false_eq_true, if_false, List.length_cons]
        omega

/-- The extractor keeps the raw item's id as the record's `comment_id`. -/
theorem extract_comment_id (r : RawItem) (vid : String) (isr : Bool)
    (pid : String) : (extract_comment_data r vid isr pid).comment_id = r.id :=
  rfl

/-- Filtering records by a predicate on `comment_id` commutes with taking
the `comment_id`s. -/
theorem map_filter_comment_id (l : List CommentRecord) (p : String → Bool) :
    (l.filter (fun r => p r.comment_id)).map (fun r => r.comment_id) =
      (l.map (fun r => r.comment_id)).filter p := by
  induction l with
  | nil => rfl
  | cons a l ih =>
    by_cases h : p a.comment_id <;> simp [List.filter_cons, h, ih]

/-- The `comment_id`s one thread item contributes on a successful run. -/
def itemIdList (vid : String) (fetch : String → List RawItem)
    (t : ThreadItem) : List String :=
  (itemRecords vid fetch t).map (fun r => r.comment_id)

/-- Closed form of `itemIdList`: the thread's own id, the embedded reply
ids, and — when the completer is triggered — the fetched ids surviving
the duplicate filter. -/
theorem itemIdList_eq (vid : String) (fetch : String → List RawItem)
    (t : ThreadItem) :
    itemIdList vid fetch t =
      t.base.id :: embRawIds t ++
        (if replyFetchNeeded t
         then (fetchIds fetch t).filter (fun x => !((embRawIds t).contains x))
         else []) := by
  have hemb : (match t.replies with
      | some rs => rs.map (fun r => extract_comment_data r vid true t.base.id)
      | none => ([] : List CommentRecord)).length = embLen t := by
    cases h : t.replies <;> simp [embLen, h]
  have hembids : (match t.replies with
      | some rs => rs.map (fun r => extract_comment_data r vid true t.base.id)
      | none => ([] : List CommentRecord)).map
        (fun (r : CommentRecord) => r.comment_id) =
      embRawIds t := by
    cases h : t.replies <;>
      simp [embRawIds, h, List.map_map, extract_comment_id]
  unfold itemIdList itemRecords
  by_cases htr : replyFetchNeeded t
  · have hlt : embLen t < trcD t := by
      simpa [replyFetchNeeded] using htr
    rw [if_pos (by rw [hemb]; exact hlt), if_pos htr]
    simp only [List.map_cons, List.map_append, extract_comment_id, hembids]
    rw [map_filter_comment_id
      ((fetch t.base.id).map (fun r => extract_comment_data r vid true t.base.id))
      (fun x => !((embRawIds t).contains x))]
    simp only [fetchIds, List.map_map]
    rfl
  · have hge : ¬ (embLen t < trcD t) := by
      simpa [replyFetchNeeded] using htr
    rw [if_neg (by rw [hemb]; exact hge), if_neg htr]
    simp only [List.map_cons, extract_comment_id, hembids, List.append_nil]

/-- A thread item's contributed ids are pairwise distinct, provided its
embedded ids are distinct, its fetched ids are distinct, and the thread
id collides with neither (overlap between embedded and fetched ids is
allowed: the duplicate filter removes it). -/
theorem itemIdList_nodup (vid : String) (fetch : String → List RawItem)
    (t : ThreadItem) (h1 : (embRawIds t).Nodup)
    (h2 : replyFetchNeeded t = true → (fetchIds fetch t).Nodup)
    (h3 : t.base.id ∉ embRawIds t)
    (h4 : replyFetchNeeded t = true → t.base.id ∉ fetchIds fetch t) :
    (itemIdList vid fetch t).Nodup := by
  rw [itemIdList_eq]
  by_cases htr : replyFetchNeeded t
  · rw [if_pos htr]
    refine List.nodup_cons.mpr ⟨?_, List.Nodup.append h1 ((h2 htr).filter _) ?_⟩
    · intro hmem
      rcases List.mem_append.mp hmem with hin | hin
      · exact h3 hin
      · exact h4 htr (List.mem_of_mem_filter hin)
    · intro x hx hx2
      have hp := List.of_mem_filter hx2
      simp at hp
      exact hp hx
  · rw [if_neg htr]
    simp only [List.append_nil]
    exact List.nodup_cons.mpr ⟨h3, h1⟩

/-- Every id a thread item contributes is in its `usedIds`. -/
theorem itemIdList_subset_usedIds (vid : String)
    (fetch : String → List RawItem) (t : ThreadItem) :
    ∀ x ∈ itemIdList vid fetch t, x ∈ usedIds fetch t := by
  intro x hx
  rw [itemIdList_eq] at hx
  unfold usedIds
  by_cases htr : replyFetchNeeded t
  · rw [if_pos htr] at hx
    rw [if_pos htr]
    simp only [List.cons_append, List.mem_cons, List.mem_append] at hx ⊢
    rcases hx with h | h | h
    · exact Or.inl h
    · exact Or.inr (Or.inl h)
    · exact Or.inr (Or.inr (List.mem_of_mem_filter h))
  · rw [if_neg htr] at hx
    rw [if_neg htr]
    exact hx

/-- The ids of a run's records are the flattened per-item id lists. -/
theorem runRecords_ids (vid : String) (fetch : String → List RawItem)
    (pages : List (List ThreadItem)) :
    (runRecords vid fetch pages).map (fun r => r.comment_id) =
      (pages.flatten.map (itemIdList vid fetch)).flatten := by
  have h : ∀ items : List ThreadItem,
      ((items.map (itemRecords vid fetch)).flatten).map
          (fun r => r.comment_id) =
        (items.map (itemIdList vid fetch)).flatten := by
    intro items
    induction items with
    | nil => rfl
    | cons t ts ih =>
      simp only [List.map_cons, List.flatten_cons, List.map_append, ih]
      rfl
  exact h pages.flatten

/-- C3: on a successful run against a pure environment — any page layout,
any replies-endpoint answers — no two records of the final list returned
by `collect_all_comments` share a `comment_id`, as long as the response
data itself does not force a duplicate: thread ids, embedded ids and
fetched ids are internally distinct and distinct across items, while the
fetched replies of an item may freely overlap its own embedded replies
(that overlap is what the duplicate filter removes). -/
theorem C3_dedup_comment_ids (cred : Nat → Option String)
    (fetch : String → List RawItem) (vid : String)
    (pages : List (List ThreadItem)) (c : Config) (fuel : Nat)
    (Hmr : 1 ≤ c.max_retries)
    (Hq : pagesCalls pages + totalTrig pages ≤ c.quota_limit_per_day)
    (Hfuel : pagesCalls pages + 1 ≤ fuel)
    (Htrc : ∀ t ∈ pages.flatten, (t.base.snippet.totalReplyCount).isSome)
    (Hnodup : ∀ t ∈ pages.flatten, (embRawIds t).Nodup ∧
        t.base.id ∉ embRawIds t ∧
        (replyFetchNeeded t = true → (fetchIds fetch t).Nodup ∧
          t.base.id ∉ fetchIds fetch t))
    (Hdisj : pages.flatten.Pairwise
        (fun t1 t2 => ∀ x ∈ usedIds fetch t1, x ∉ usedIds fetch t2)) :
    collect_all_comments (pureEnv cred pages fetch) fuel vid c =
      .done (runRecords vid fetch pages)
        { config := c, quotaUsage := pagesCalls pages + totalTrig pages
        , tCalls := pagesCalls pages, rCalls := totalTrig pages }
    ∧ ((runRecords vid fetch pages).map (fun r => r.comment_id)).Nodup := by
  constructor
  · have h := collect_outer_pure cred fetch vid pages pages fuel none
      (initSt c) [] (by simp [tokIdx]) Hmr (by simpa [initSt] using Hq)
      Hfuel Htrc
    simpa [collect_all_comments, initSt, runRecords] using h
  · rw [runRecords_ids, List.nodup_flatten]
    constructor
    · intro l hl
      obtain ⟨t, ht, rfl⟩ := List.mem_map.mp hl
      obtain ⟨hh1, hh3, hh24⟩ := Hnodup t ht
      exact itemIdList_nodup vid fetch t hh1 (fun h => (hh24 h).1) hh3
        (fun h => (hh24 h).2)
    · refine List.Pairwise.map _ ?_ Hdisj
      intro t1 t2 hdis x hx1 hx2
      exact hdis x (itemIdList_subset_usedIds vid fetch t1 x hx1)
        (itemIdList_subset_usedIds vid fetch t2 x hx2)

/-- C7: on a successful run, the number of calls made to the replies
endpoint equals the number of thread items whose declared
`totalReplyCount` strictly exceeds their embedded reply count — the
completer runs exactly for those items — and an item with
`totalReplyCount = 0` can never satisfy the trigger. -/
theorem C7_reply_completer_trigger (cred : Nat → Option String)
    (fetch : String → List RawItem) (vid : String)
    (pages : List (List ThreadItem)) (c : Config) (fuel : Nat)
    (Hmr : 1 ≤ c.max_retries)
    (Hq : pagesCalls pages + totalTrig pages ≤ c.quota_limit_per_day)
    (Hfuel : pagesCalls pages + 1 ≤ fuel)
    (Htrc : ∀ t ∈ pages.flatten, (t.base.snippet.totalReplyCount).isSome) :
    (collectResultState
        (collect_all_comments (pureEnv cred pages fetch) fuel vid c)).map
        (fun st => st.rCalls) =
      some ((pages.flatten.filter replyFetchNeeded).length)
    ∧ ∀ t : ThreadItem, trcD t = 0 → replyFetchNeeded t = false := by
  constructor
  · have h := collect_outer_pure cred fetch vid pages pages fuel none
      (initSt c) [] (by simp [tokIdx]) Hmr (by simpa [initSt] using Hq)
      Hfuel Htrc
    rw [collect_all_comments, h]
    simp [collectResultState, initSt, totalTrig, trigCount]
  · intro t ht
    simp [replyFetchNeeded, ht]

/-- Filtering out of a duplicate-free list the members of a
duplicate-free sublist leaves exactly the length difference. -/
theorem length_filter_not_mem (l e : List String)
    (hl : l.Nodup) (he : e.Nodup) (hsub : ∀ x ∈ e, x ∈ l) :
    (l.filter (fun x => !(e.contains x))).length = l.length - e.length := by
  have hsplit : ∀ l2 : List String,
      (l2.filter (fun x => e.contains x)).length +
        (l2.filter (fun x => !(e.contains x))).length = l2.length := by
    intro l2
    induction l2 with
    | nil => rfl
    | cons a t2 ih =>
      rw [List.filter_cons, List.filter_cons]
      by_cases h : a ∈ e
      · have hc : e.contains a = true := by simpa using h
        rw [if_pos hc, if_neg (by simp [h]), List.length_cons,
          List.length_cons]
        omega
      · have hc : e.contains a = false := by simpa using h
        rw [if_neg (by simp [h]), if_pos (by simp [h]), List.length_cons,
          List.length_cons]
        omega
  have hlen : (l.filter (fun x => e.contains x)).length = e.length := by
    have h1 : (l.filter (fun x => e.contains x)) ⊆ e := by
      intro x hx
      have hp := List.of_mem_filter hx
      simpa using hp
    have h2 : e ⊆ (l.filter (fun x => e.contains x)) := by
      intro x hx
      exact List.mem_filter.mpr ⟨hsub x hx, by simpa using hx⟩
    exact Nat.le_antisymm
      (List.subperm_of_subset (hl.filter _) h1).length_le
      (List.subperm_of_subset he h2).length_le
  have hx := hsplit l
  omega

/-- C4: a successful single-thread run whose thread item declares
`total_reply_count = 5` and embeds exactly 2 replies, against a replies
endpoint that returns all 5 reply records with no gaps (the embedded ids
are among the 5 distinct fetched ids), ends with exactly 5 reply records
whose `parent_id` is that thread's comment id: the 2 embedded ones plus
the 3 fetched ones that are not duplicates. -/
theorem C4_reply_completeness (cred : Nat → Option String)
    (fetch : String → List RawItem) (vid : String) (t : ThreadItem)
    (c : Config) (fuel : Nat) (embRaw : List RawItem)
    (Htrc5 : t.base.snippet.totalReplyCount = some 5)
    (Hemb : t.replies = some embRaw)
    (Hlen2 : embRaw.length = 2)
    (Hnodemb : (embRawIds t).Nodup)
    (Hf5 : (fetch t.base.id).length = 5)
    (Hnodf : (fetchIds fetch t).Nodup)
    (Hsub : ∀ x ∈ embRawIds t, x ∈ fetchIds fetch t)
    (Hmr : 1 ≤ c.max_retries) (Hq : 2 ≤ c.quota_limit_per_day)
    (Hfuel : 2 ≤ fuel) :
    (((collectResultComments
        (collect_all_comments (pureEnv cred [[t]] fetch) fuel vid c)).getD
      []).filter
        (fun r => r.is_reply && (r.parent_id == t.base.id))).length = 5 := by
  have htrig : replyFetchNeeded t = true := by
    simp [replyFetchNeeded, trcD, Htrc5, embLen, Hemb, Hlen2]
  have hpc : pagesCalls [[t]] = 1 := by simp [pagesCalls]
  have htt : totalTrig [[t]] = 1 := by
    simp [totalTrig, trigCount, htrig]
  have hrun := collect_outer_pure cred fetch vid [[t]] [[t]] fuel none
    (initSt c) [] (by simp [tokIdx]) Hmr
    (by simp [initSt, hpc, htt]; omega)
    (by rw [hpc]; omega)
    (by
      intro u hu
      simp only [List.flatten_cons, List.flatten_nil, List.append_nil,
        List.mem_singleton] at hu
      rw [hu, Htrc5]
      rfl)
  rw [collect_all_comments, hrun]
  simp only [collectResultComments, Option.getD_some]
  have hitem : ([] ++ (List.map (itemRecords vid fetch)
      ([[t]] : List (List ThreadItem)).flatten).flatten) =
      itemRecords vid fetch t := by
    simp
  rw [hitem]
  unfold itemRecords
  rw [Hemb]
  rw [if_pos (by simp [trcD, Htrc5, Hlen2])]
  rw [List.cons_append, List.filter_cons]
  have htop : ((extract_comment_data t.base vid false "").is_reply &&
      ((extract_comment_data t.base vid false "").parent_id == t.base.id)) =
        false := by
    simp [extract_comment_data]
  rw [htop]
  rw [if_neg (by simp)]
  rw [List.filter_append]
  have hembfull : (embRaw.map
      (fun r => extract_comment_data r vid true t.base.id)).filter
        (fun r => r.is_reply && (r.parent_id == t.base.id)) =
      embRaw.map (fun r => extract_comment_data r vid true t.base.id) := by
    rw [List.filter_eq_self]
    intro r hr
    obtain ⟨a, _, rfl⟩ := List.mem_map.mp hr
    simp [extract_comment_data]
  rw [hembfull]
  have hnewfull : (((fetch t.base.id).map
      (fun r => extract_comment_data r vid true t.base.id)).filter
        (fun r => !((embRaw.map
          (fun r => extract_comment_data r vid true t.base.id)).map
            (fun (r : CommentRecord) => r.comment_id)).contains
          r.comment_id)).filter
        (fun r => r.is_reply && (r.parent_id == t.base.id)) =
      ((fetch t.base.id).map
        (fun r => extract_comment_data r vid true t.base.id)).filter
          (fun r => !((embRaw.map
            (fun r => extract_comment_data r vid true t.base.id)).map
              (fun (r : CommentRecord) => r.comment_id)).contains
            r.comment_id) := by
    rw [List.filter_eq_self]
    intro r hr
    have hr2 := List.mem_of_mem_filter hr
    obtain ⟨a, _, rfl⟩ := List.mem_map.mp hr2
    simp [extract_comment_data]
  rw [hnewfull]
  rw [List.length_append, List.length_map, Hlen2]
  have hembids2 : (embRaw.map
      (fun r => extract_comment_data r vid true t.base.id)).map
        (fun (r : CommentRecord) => r.comment_id) = embRawIds t := by
    simp only [embRawIds, Hemb, List.map_map]
    rfl
  have hfl : (((fetch t.base.id).map
      (fun r => extract_comment_data r vid true t.base.id)).filter
        (fun r => !((embRaw.map
          (fun r => extract_comment_data r vid true t.base.id)).map
            (fun (r : CommentRecord) => r.comment_id)).contains
          r.comment_id)).length = 3 := by
    have hmap := map_filter_comment_id
      ((fetch t.base.id).map (fun r => extract_comment_data r vid true t.base.id))
      (fun x => !((embRaw.map
        (fun r => extract_comment_data r vid true t.base.id)).map
          (fun (r : CommentRecord) => r.comment_id)).contains x)
    have hlen := congrArg List.length hmap
    rw [List.length_map] at hlen
    rw [hlen]
    rw [hembids2]
    have hfds : ((fetch t.base.id).map
        (fun r => extract_comment_data r vid true t.base.id)).map
          (fun (r : CommentRecord) => r.comment_id) = fetchIds fetch t := by
      simp only [fetchIds, List.map_map]
      rfl
    rw [hfds]
    rw [length_filter_not_mem (fetchIds fetch t) (embRawIds t) Hnodf Hnodemb
      Hsub]
    have : (fetchIds fetch t).length = 5 := by
      simp [fetchIds, Hf5]
    rw [this]
    have : (embRawIds t).length = 2 := by
      simp [embRawIds, Hemb, Hlen2]
    rw [this]
  rw [hfl]

/-- An environment whose replies endpoint serves the given pages in
order, chained by length-encoded tokens, with no credentials configured
and an unused threads endpoint — a script of N successful remote calls
of cost 1 each for the replies walk. -/
def chainRepEnv (pages : List (List RawItem)) : Env :=
  { cred := fun _ => none
  , threads := fun _ _ => .ok [] none
  , repl := fun _ tok _ =>
      match pages.drop (tokIdx tok) with
      | [] => .ok [] none
      | pg :: rest =>
        .ok pg (if rest.isEmpty then none else some (tokStr (tokIdx tok + 1))) }

/-- Number of replies calls a successful walk of the given pages makes. -/
def repPagesCalls (pages : List (List RawItem)) : Nat :=
  if pages.isEmpty then 1 else pages.length

/-- The replies endpoint of a chain environment, as an equation. -/
theorem chainRepEnv_repl (pages : List (List RawItem)) (q : String)
    (tok : Option String) (i : Nat) :
    (chainRepEnv pages).repl q tok i =
      match pages.drop (tokIdx tok) with
      | [] => .ok [] none
      | pg :: rest =>
        .ok pg
          (if rest.isEmpty then none else some (tokStr (tokIdx tok + 1))) :=
  rfl

/-- A full replies walk against a chain environment returns the
extraction of all pages and bumps the call counter and the quota by one
per call, with no credential rotation. -/
theorem get_all_replies_chain (pages : List (List RawItem)) (p vid : String) :
    ∀ (rest : List (List RawItem)) (fuel : Nat) (tok : Option String)
      (st : CollSt) (acc : List CommentRecord),
      pages.drop (tokIdx tok) = rest →
      1 ≤ st.config.max_retries →
      st.quotaUsage + repPagesCalls rest ≤ st.config.quota_limit_per_day →
      repPagesCalls rest ≤ fuel →
      get_all_replies_loop (chainRepEnv pages) p vid fuel st acc tok =
        .done (acc ++ (rest.map (fun pg => pg.map
            (fun r => extract_comment_data r vid true p))).flatten)
          { st with rCalls := st.rCalls + repPagesCalls rest
                  , quotaUsage := st.quotaUsage + repPagesCalls rest } := by
  intro rest
  induction rest with
  | nil =>
    intro fuel tok st acc hdrop Hmr Hq Hfuel
    simp only [repPagesCalls, List.isEmpty_nil, if_true] at Hq Hfuel
    obtain ⟨f, rfl⟩ : ∃ f, fuel = f + 1 := ⟨fuel - 1, by omega⟩
    obtain ⟨b, hb⟩ : ∃ b, st.config.max_retries = b + 1 :=
      ⟨st.config.max_retries - 1, (Nat.succ_pred_eq_of_pos Hmr).symm⟩
    have hcq : check_quota (chainRepEnv pages) 1 st = (st, .ok true) := by
      unfold check_quota
      rw [if_neg (by omega)]
    unfold get_all_replies_loop
    rw [hb]
    unfold replies_inner
    simp only [hcq, chainRepEnv_repl, hdrop]
    simp [pyStrTruthy, repPagesCalls]
  | cons pg rest' ih =>
    intro fuel tok st acc hdrop Hmr Hq Hfuel
    have hpc : repPagesCalls (pg :: rest') = rest'.length + 1 := by
      simp [repPagesCalls]
    rw [hpc] at Hq Hfuel
    obtain ⟨f, rfl⟩ : ∃ f, fuel = f + 1 := ⟨fuel - 1, by omega⟩
    obtain ⟨b, hb⟩ : ∃ b, st.config.max_retries = b + 1 :=
      ⟨st.config.max_retries - 1, (Nat.succ_pred_eq_of_pos Hmr).symm⟩
    have hcq : check_quota (chainRepEnv pages) 1 st = (st, .ok true) := by
      unfold check_quota
      rw [if_neg (by omega)]
    unfold get_all_replies_loop
    rw [hb]
    unfold replies_inner
    simp only [hcq, chainRepEnv_repl, hdrop]
    cases rest' with
    | nil =>
      simp [pyStrTruthy, repPagesCalls]
    | cons pg2 rest'' =>
      simp only [List.isEmpty_cons, Bool.false_eq_true, if_false,
        tokStr_truthy, if_true]
      rw [ih f (some (tokStr (tokIdx tok + 1)))
        { st with rCalls := st.rCalls + 1, quotaUsage := st.quotaUsage + 1 }
        (acc ++ pg.map (fun r => extract_comment_data r vid true p))
        (by rw [tokIdx_tokStr, ← List.tail_drop, hdrop]; rfl)
        Hmr
        (by
          show st.quotaUsage + 1 + repPagesCalls (pg2 :: rest'') ≤
            st.config.quota_limit_per_day
          simp only [repPagesCalls, List.isEmpty_cons, Bool.false_eq_true,
            if_false, List.length_cons] at Hq ⊢
          omega)
        (by
          show repPagesCalls (pg2 :: rest'') ≤ f
          simp only [repPagesCalls, List.isEmpty_cons, Bool.false_eq_true,
            if_false, List.length_cons] at Hfuel ⊢
          omega)]
      simp only [List.map_cons, List.flatten_cons, List.append_assoc]
      congr 1
      simp only [CollSt.mk.injEq, eq_self_iff_true, true_and, and_true,
        repPagesCalls, List.isEmpty_cons, Bool.false_eq_true, if_false,
        List.length_cons]
      omega

/-- C8: starting from usage 0, a replies walk of N successful remote
calls of declared cost 1 each with no rotation ends with `quota_usage`
equal to N (first conjunct; one call per page, no rotation can occur
because no credential environment is consulted on the success path); and
in the step functions, usage is reset to 0 exactly in the branch guarded
by a truthy `_change_api` result (second and third conjuncts: the
biconditional holds, with both sides never satisfiable since
`_change_api` returns `None`). -/
theorem C8_quota_usage_counts_calls (pages : List (List RawItem))
    (p vid : String) (c : Config) (fuel : Nat)
    (Hne : pages ≠ [])
    (Hmr : 1 ≤ c.max_retries)
    (Hq : pages.length ≤ c.quota_limit_per_day)
    (Hfuel : pages.length ≤ fuel) :
    (∃ replies, get_all_replies (chainRepEnv pages) fuel (initSt c) p vid =
        .done replies
          { config := c, quotaUsage := pages.length
          , tCalls := 0, rCalls := pages.length })
    ∧ (∀ (env : Env) (cost : Nat) (st : CollSt),
        ((check_quota env cost st).1.quotaUsage = 0 ∧ 0 < st.quotaUsage) ↔
          (st.config.quota_limit_per_day < st.quotaUsage + cost ∧
            pyTruthy (change_api env.cred st.config).2 = true))
    ∧ (∀ (env : Env) (status : Nat) (content : String) (st : CollSt),
        ((handle_api_error env status content st).1.quotaUsage = 0 ∧
            0 < st.quotaUsage) ↔
          (status = 403 ∧ containsSub content "quotaExceeded" = true ∧
            pyTruthy (change_api env.cred st.config).2 = true)) := by
  refine ⟨?_, ?_, ?_⟩
  · have hrp : repPagesCalls pages = pages.length := by
      simp [repPagesCalls, Hne]
    have h := get_all_replies_chain pages p vid pages fuel none (initSt c) []
      (by simp [tokIdx]) Hmr (by simp [initSt, hrp]; omega) (by omega)
    refine ⟨(pages.map (fun pg => pg.map
      (fun r => extract_comment_data r vid true p))).flatten, ?_⟩
    rw [get_all_replies, h]
    simp [initSt, hrp]
  · intro env cost st
    refine iff_of_false ?_ ?_
    · rintro ⟨h0, hpos⟩
      unfold check_quota at h0
      by_cases hq : st.quotaUsage + cost > st.config.quota_limit_per_day
      · simp only [hq, if_true, change_api, pyTruthy, Bool.false_eq_true,
          if_false] at h0
        omega
      · simp only [hq, if_false] at h0
        omega
    · rintro ⟨-, hpt⟩
      simp [change_api, pyTruthy] at hpt
  · intro env status content st
    refine iff_of_false ?_ ?_
    · rintro ⟨h0, hpos⟩
      unfold handle_api_error at h0
      by_cases h403 : status == 403
      · by_cases hqc : containsSub content "quotaExceeded"
        · simp only [h403, hqc, if_true, change_api, pyTruthy,
            Bool.false_eq_true, if_false] at h0
          omega
        · simp only [h403, hqc, if_true, Bool.false_eq_true, if_false] at h0
          omega
      · simp only [h403, Bool.false_eq_true, if_false] at h0
        omega
    · rintro ⟨-, -, hpt⟩
      simp [change_api, pyTruthy] at hpt

/-- A snippet used by the concrete witness scenarios. -/
def wSnip : CommentSnippet :=
  { authorDisplayName := "au", authorChannelId := none
  , textDisplay := "td", textOriginal := "to", likeCount := 0
  , publishedAt := "p", updatedAt := "u" }

/-- A raw reply resource with the given id. -/
def wRaw (i : String) : RawItem :=
  { id := i
  , snippet :=
    { direct := wSnip, topLevelComment := wSnip, totalReplyCount := none } }

/-- A thread item with the given id, declared reply count and embedded
replies. -/
def wThread (i : String) (trc : Nat) (rs : List RawItem) : ThreadItem :=
  { base :=
    { id := i
    , snippet :=
      { direct := wSnip, topLevelComment := wSnip
      , totalReplyCount := some trc } }
  , replies := some rs }

/-- Witness configuration. -/
def wCfg : Config :=
  { api_key := "k", api_count := 1
  , quota_limit_per_day := 100, max_retries := 3 }

/-- Witness thread A: 3 embedded replies, declared count 3 (no fetch). -/
def c3A : ThreadItem := wThread "A" 3 [wRaw "a1", wRaw "a2", wRaw "a3"]

/-- Witness thread B: 1 embedded reply, declared count 4 (fetch needed). -/
def c3B : ThreadItem := wThread "B" 4 [wRaw "b1"]

/-- Witness replies endpoint: for B it returns three replies, one of
which duplicates B's embedded reply by id. -/
def c3Fetch : String → List RawItem :=
  fun s => if s == "B" then [wRaw "b1", wRaw "b2", wRaw "b3"] else []

/-- Witness for C3: the spec's own scenario (thread A complete, thread B
triggering a fetch that overlaps B's embedded reply) satisfies every
hypothesis, the run returns normally, the final ids are pairwise
distinct, and the duplicate is filtered: 8 records in total. -/
theorem C3_dedup_comment_ids_witness :
    collect_all_comments (pureEnv (fun _ => none) [[c3A, c3B]] c3Fetch)
        10 "v" wCfg =
      .done (runRecords "v" c3Fetch [[c3A, c3B]])
        { config := wCfg, quotaUsage := 2, tCalls := 1, rCalls := 1 }
    ∧ ((runRecords "v" c3Fetch [[c3A, c3B]]).map
        (fun r => r.comment_id)).Nodup
    ∧ (runRecords "v" c3Fetch [[c3A, c3B]]).length = 8 := by
  have h := C3_dedup_comment_ids (fun _ => none) c3Fetch "v" [[c3A, c3B]]
    wCfg 10 (by decide) (by decide) (by decide) (by decide) (by decide)
    (by decide)
  exact ⟨h.1, h.2, by decide⟩

/-- Witness thread for C4: declared count 5, two embedded replies. -/
def c4T : ThreadItem := wThread "P" 5 [wRaw "r1", wRaw "r2"]

/-- Witness replies endpoint for C4: all five replies, no gaps. -/
def c4Fetch : String → List RawItem :=
  fun s => if s == "P" then
    [wRaw "r1", wRaw "r2", wRaw "r3", wRaw "r4", wRaw "r5"] else []

/-- Witness for C4: with 5 declared, 2 embedded and a gap-free replies
endpoint, the merged run holds exactly 5 reply records under the thread. -/
theorem C4_reply_completeness_witness :
    (((collectResultComments
        (collect_all_comments (pureEnv (fun _ => none) [[c4T]] c4Fetch)
          10 "v" wCfg)).getD []).filter
      (fun r => r.is_reply && (r.parent_id == c4T.base.id))).length = 5 :=
  C4_reply_completeness (fun _ => none) c4Fetch "v" c4T wCfg 10
    [wRaw "r1", wRaw "r2"] rfl rfl rfl (by decide) rfl (by decide)
    (by decide) (by decide) (by decide) (by decide)

/-- C7 witness threads: one with declared count 0 and no embedded
replies, one with declared count 2 and no embedded replies. -/
def c7T0 : ThreadItem := wThread "T0" 0 []

/-- The triggering thread of the C7 witness. -/
def c7T1 : ThreadItem := wThread "T1" 2 []

/-- Witness replies endpoint for C7. -/
def c7Fetch : String → List RawItem :=
  fun s => if s == "T1" then [wRaw "x1", wRaw "x2"] else []

/-- Witness for C7: of the two threads only the one with declared count
above its embedded count triggers a replies call (one call in total),
and the zero-count thread does not satisfy the trigger. -/
theorem C7_reply_completer_trigger_witness :
    (collectResultState
        (collect_all_comments (pureEnv (fun _ => none) [[c7T0, c7T1]]
          c7Fetch) 10 "v" wCfg)).map (fun st => st.rCalls) = some 1
    ∧ replyFetchNeeded c7T0 = false := by
  have h := C7_reply_completer_trigger (fun _ => none) c7Fetch "v"
    [[c7T0, c7T1]] wCfg 10 (by decide) (by decide) (by decide) (by decide)
  exact ⟨by rw [h.1]; decide, h.2 c7T0 (by decide)⟩

/-- The quota reading of a finished replies walk. -/
def repResUsage : RepRes → Option Nat
  | .done _ st => some st.quotaUsage
  | _ => none

/-- The replies-call count of a finished replies walk. -/
def repResCalls : RepRes → Option Nat
  | .done _ st => some st.rCalls
  | _ => none

/-- Witness replies pages for C8: two successful pages. -/
def c8Pages : List (List RawItem) := [[wRaw "r1"], []]

/-- Witness for C8: a walk of two successful cost-1 calls ends with
`quota_usage = 2`. -/
theorem C8_quota_usage_counts_calls_witness :
    repResUsage (get_all_replies (chainRepEnv c8Pages) 10 (initSt wCfg)
      "P" "v") = some 2
    ∧ repResCalls (get_all_replies (chainRepEnv c8Pages) 10 (initSt wCfg)
      "P" "v") = some 2 := by
  obtain ⟨replies, hr⟩ := (C8_quota_usage_counts_calls c8Pages "P" "v" wCfg
    10 (by decide) (by decide) (by decide) (by decide)).1
  rw [hr]
  exact ⟨rfl, rfl⟩
